import Mathlib

/-!
Verification of the nutanix-go-sdk client pipeline.

The definitions below are a shallow embedding of the Go source
(`client.go`, `vm.go`, `project.go`, `subnet.go`): pure Lean functions
mirroring the pagination driver (`listHelper` / `hasNext`), the response
decoder (`checkResponse`), the client constructor (`NewClient` with its
option pattern), the request builders (`setHeaders`, `newV3Request`,
`newV2Request`) and the by-name lookup helpers (`GetByName`).
Machine `int64` values are modelled as `Int`; fallible steps return
`Option`; the HTTP wire layer is abstracted as an explicit fetch
function from an offset to the page of entities the server returns.
-/

namespace Nutanix

/-- The constant `itemsPerPage int64 = 500` from `client.go`. -/
def itemsPerPage : Int := 500

/-- The constant `userAgent = "nutanix/" + "cmd.Version"` from `client.go`. -/
def userAgentConst : String := "nutanix/" ++ "cmd.Version"

/-- Embedding of `hasNext(ri *int64) bool` from `client.go`:
`*ri -= itemsPerPage; return *ri >= (0 - itemsPerPage)`.
The returned pair carries the updated value of `*ri` and the boolean result. -/
def hasNext (ri : Int) : Int × Bool :=
  (ri - itemsPerPage, decide (ri - itemsPerPage ≥ 0 - itemsPerPage))

/-- Embedding of the pagination loop body shared by every case of
`listHelper` in `client.go`:
`for hasNext(&remaining) { opts.Offset = &offset; fetch; v.Entities = append(v.Entities, newList.Entities...); offset += itemsPerPage }`.
`fetch o` abstracts one `requestHelper` POST with `opts.Offset = o`,
returning the entities of that page. The `Nat` component counts the
physical fetches issued, seeded by the caller. -/
def pagLoop (fetch : Int → List α) (remaining offset : Int) (acc : List α)
    (count : Nat) : List α × Nat :=
  if h : (hasNext remaining).2 = true then
    pagLoop fetch (hasNext remaining).1 (offset + itemsPerPage)
      (acc ++ fetch offset) (count + 1)
  else (acc, count)
termination_by (remaining + itemsPerPage).toNat
decreasing_by
  simp only [hasNext, itemsPerPage, decide_eq_true_eq] at *
  omega

/-- Embedding of one `case` arm of `listHelper` in `client.go` after the
initial `requestHelper` call: given the first page already fetched (one
physical fetch, hence the seed count `1`), its metadata
(`totalEntities := v.Metadata.TotalMatches`, `offset := v.Metadata.Offset`),
run the pagination loop only when `totalEntities > itemsPerPage`.
Returns the accumulated `v.Entities` and the total number of physical
fetches issued. -/
def listHelper (fetch : Int → List α) (totalMatches offset0 : Int)
    (firstPage : List α) : List α × Nat :=
  if totalMatches > itemsPerPage then
    pagLoop fetch totalMatches offset0 firstPage 1
  else (firstPage, 1)

/-- Model of a well-behaved paged backend over a fixed entity list:
a fetch at offset `o` returns the slice of (at most) one page size
starting at `o`. Used to instantiate the abstract fetch function on
concrete inputs. -/
def serverFetch (ents : List α) (o : Int) : List α :=
  (ents.drop o.toNat).take itemsPerPage.toNat

/-- Closed form for the number of iterations the pagination loop performs
when entered with a given `remaining` value. -/
def loopIters (remaining : Int) : Nat :=
  if remaining < 0 then 0 else remaining.toNat / 500 + 1

/-- Concatenation of `n` consecutive pages starting at `offset`, advancing
by one page size each time; the shape the loop accumulates. -/
def pagesConcat (fetch : Int → List α) (offset : Int) : Nat → List α
  | 0 => []
  | n + 1 => fetch offset ++ pagesConcat fetch (offset + itemsPerPage) n

/-- Closed form of `pagLoop`: it appends `loopIters remaining` consecutive
pages to the accumulator and issues that many additional fetches. -/
theorem pagLoop_closed (fetch : Int → List α) :
    ∀ (fuel : Nat) (remaining offset : Int) (acc : List α) (count : Nat),
      (remaining + itemsPerPage).toNat ≤ fuel →
      pagLoop fetch remaining offset acc count =
        (acc ++ pagesConcat fetch offset (loopIters remaining),
          count + loopIters remaining) := by
  intro fuel
  induction fuel with
  | zero =>
    intro remaining offset acc count hle
    rw [pagLoop]
    have hneg : remaining < 0 := by
      simp only [itemsPerPage] at hle; omega
    have hcond : ¬ ((hasNext remaining).2 = true) := by
      simp only [hasNext, decide_eq_true_eq, itemsPerPage]
      omega
    rw [dif_neg hcond]
    have hit : loopIters remaining = 0 := by
      unfold loopIters
      rw [if_pos hneg]
    rw [hit]
    simp [pagesConcat]
  | succ n ih =>
    intro remaining offset acc count hle
    rw [pagLoop]
    by_cases hcond : (hasNext remaining).2 = true
    · rw [dif_pos hcond]
      have hge : remaining ≥ 0 := by
        simp only [hasNext, decide_eq_true_eq, itemsPerPage] at hcond
        omega
      have hfst : (hasNext remaining).1 = remaining - itemsPerPage := rfl
      rw [hfst]
      rw [ih (remaining - itemsPerPage) (offset + itemsPerPage)
        (acc ++ fetch offset) (count + 1)
        (by simp only [itemsPerPage] at hle ⊢; omega)]
      have hiters : loopIters remaining = loopIters (remaining - itemsPerPage) + 1 := by
        unfold loopIters
        simp only [itemsPerPage]
        by_cases hlt : remaining - 500 < 0
        · rw [if_neg (by omega), if_pos (by omega)]
          omega
        · rw [if_neg (by omega), if_neg (by omega)]
          omega
      rw [hiters]
      simp only [pagesConcat]
      rw [List.append_assoc]
      congr 1
      omega
    · rw [dif_neg hcond]
      have hlt : remaining < 0 := by
        simp only [hasNext, decide_eq_true_eq, itemsPerPage] at hcond
        omega
      have hit : loopIters remaining = 0 := by
        unfold loopIters
        rw [if_pos hlt]
      rw [hit]
      simp [pagesConcat]

/-- Unconditional closed form of `pagLoop` (fuel instantiated). -/
theorem pagLoop_eq (fetch : Int → List α) (remaining offset : Int)
    (acc : List α) (count : Nat) :
    pagLoop fetch remaining offset acc count =
      (acc ++ pagesConcat fetch offset (loopIters remaining),
        count + loopIters remaining) :=
  pagLoop_closed fetch (remaining + itemsPerPage).toNat remaining offset acc
    count (Nat.le_refl _)

/-- C6: for every list response with `total_matches ≤ page_size` (500), the
pagination driver issues exactly one physical fetch and returns the first
page's entities unchanged (same elements, same order). -/
theorem listHelper_single_page (fetch : Int → List Nat)
    (totalMatches offset0 : Int) (firstPage : List Nat)
    (h : totalMatches ≤ itemsPerPage) :
    listHelper fetch totalMatches offset0 firstPage = (firstPage, 1) := by
  unfold listHelper
  rw [if_neg (by omega)]

/-- Witness for `listHelper_single_page` at a concrete input:
`total_matches = 3` with a two-element first page. -/
theorem listHelper_single_page_witness :
    listHelper (fun _ => ([] : List Nat)) 3 0 [7, 9] = ([7, 9], 1) :=
  listHelper_single_page (fun _ => []) 3 0 [7, 9] (by decide)

/-- C8: the loop guard `hasNext` decrements the remaining-count by the page
size (500) on every evaluation and continues exactly while the decremented
value is `≥ -page_size`; consequently for every nonnegative initial
`total_matches` the loop terminates after exactly `total/500 + 1`
iterations, and when the remaining-count reaches zero exactly (a multiple
`total = 500·m`, exhausted after `m` decrements) the loop still performs
one extra fetch attempt, `m + 1` iterations in total. -/
theorem hasNext_loop_termination (fetch : Int → List Nat)
    (total offset0 : Int) (firstPage : List Nat) (count0 : Nat)
    (htotal : 0 ≤ total) :
    (∀ ri : Int, hasNext ri =
        (ri - itemsPerPage, decide (ri - itemsPerPage ≥ 0 - itemsPerPage)))
    ∧ (pagLoop fetch total offset0 firstPage count0).2 =
        count0 + (total.toNat / 500 + 1)
    ∧ (∀ m : Nat, total = 500 * m →
        (pagLoop fetch total offset0 firstPage count0).2 = count0 + (m + 1)) := by
  refine ⟨fun ri => rfl, ?_, ?_⟩
  · rw [pagLoop_eq]
    unfold loopIters
    rw [if_neg (by omega)]
  · intro m hm
    rw [pagLoop_eq]
    unfold loopIters
    rw [if_neg (by omega)]
    omega

/-- Witness for `hasNext_loop_termination`: entering the loop with
`total_matches = 1000 = 500·2` performs `2 + 1 = 3` iterations. -/
theorem hasNext_loop_termination_witness :
    (pagLoop (fun _ => ([] : List Nat)) 1000 0 [] 1).2 = 1 + (2 + 1) :=
  (hasNext_loop_termination (fun _ => []) 1000 0 [] 1 (by decide)).2.2 2 (by decide)

set_option maxRecDepth 100000 in
/-- C1 evaluated at its failing input: a backend holding 501 entities
(`total_matches = 501 = 1·500 + 1`, i.e. `N = 1`, `r = 1`). The claim
predicts `N + 1 = 2` physical fetches and `501` accumulated entities
without duplicates; the code issues `3` physical fetches and accumulates
`1001` entities, with entity `0` (indeed the whole first page) appearing
twice, because the loop's offset cursor starts at the first page's own
offset `0` and re-fetches the first page. -/
theorem listHelper_refetches_first_page :
    (listHelper (serverFetch (List.range 501)) 501 0
        (serverFetch (List.range 501) 0)).2 = 3
    ∧ (listHelper (serverFetch (List.range 501)) 501 0
        (serverFetch (List.range 501) 0)).1.length = 1001
    ∧ (listHelper (serverFetch (List.range 501)) 501 0
        (serverFetch (List.range 501) 0)).1.count 0 = 2 := by
  have h : listHelper (serverFetch (List.range 501)) 501 0
      (serverFetch (List.range 501) 0) =
      (serverFetch (List.range 501) 0 ++
        pagesConcat (serverFetch (List.range 501)) 0 (loopIters 501),
        1 + loopIters 501) := by
    unfold listHelper
    rw [if_pos (by decide)]
    exact pagLoop_eq _ 501 0 _ 1
  rw [h]
  refine ⟨by decide, by decide, by decide⟩

/-! Response decoder (`checkResponse` in `client.go`). -/

/-- Untyped JSON values, the shape `json.Unmarshal` produces into
`map[string]interface{}`; an object is its list of key/value fields. -/
inductive JVal where
  | jstr (s : String)
  | jnum (n : Int)
  | jbool (b : Bool)
  | jnull
  | jarr (elems : List JVal)
  | jobj (fields : List (String × JVal))

/-- Outcome of `checkResponse`: `success` is a `nil` error return;
`statusErr` the `fmt.Errorf("statusCode: %d, ...")` hard failure carrying
the status code; `decodeErr` an unmarshalling/field-mapping failure;
`structuredErr` the pretty-printed structured API error (state `"ERROR"`);
`panicked` the type-assertion panic on a `status` value that is neither a
string nor an object. -/
inductive CheckResult where
  | success
  | statusErr (code : Int)
  | decodeErr
  | structuredErr (state : String)
  | panicked
deriving DecidableEq

/-- Modelled from the spec: `schema.ErrorResponse` lives in the `schema`
package, which is not part of the sources; per the spec it is "a state tag
plus a message/causes payload" and only the state field steers control
flow ("if its state field equals the literal ERROR"). `fillStruct` from
`client.go` re-marshals the given object into that shape: the result is
the `state` field's string value (absent means the zero value `""`), and
a non-string `state` is a JSON type-mapping failure. -/
def fillState (fields : List (String × JVal)) : Except Unit String :=
  match fields.lookup "state" with
  | none => Except.ok ""
  | some (JVal.jstr s) => Except.ok s
  | some _ => Except.error ()

/-- Embedding of the classification chain of `checkResponse` in
`client.go` for a successfully unmarshalled body object `res`:
first `res["status"]` (string means success, object means fill
`errRes` from it, anything else is a type-assertion panic), else
`res["state"]` (fill `errRes` from `res` itself), else `res["entities"]`
(success); afterwards `errRes.State != "ERROR"` means success and
`errRes.State == "ERROR"` is the structured error. -/
def classify (res : List (String × JVal)) : CheckResult :=
  match res.lookup "status" with
  | some (JVal.jstr _) => CheckResult.success
  | some (JVal.jobj fields) =>
    match fillState fields with
    | Except.error _ => CheckResult.decodeErr
    | Except.ok st =>
      if st ≠ "ERROR" then CheckResult.success else CheckResult.structuredErr st
  | some _ => CheckResult.panicked
  | none =>
    match res.lookup "state" with
    | some _ =>
      match fillState res with
      | Except.error _ => CheckResult.decodeErr
      | Except.ok st =>
        if st ≠ "ERROR" then CheckResult.success else CheckResult.structuredErr st
    | none =>
      match res.lookup "entities" with
      | some _ => CheckResult.success
      | none => CheckResult.success

/-- The parts of an `*http.Response` that `checkResponse` inspects:
`r.Request.Method`, `r.StatusCode`, and the raw body bytes. -/
structure HttpResponse where
  method : String
  statusCode : Int
  body : List Char

/-- Embedding of the `buf, err := ioutil.ReadAll(r.Body)` step of
`checkResponse` in `client.go`: the bytes the decoder holds in memory.
`ReadAll` is reached whenever the 2xx-DELETE shortcut does not fire, and
it retains the entire body with no size limit. -/
def heldBuf (r : HttpResponse) : List Char :=
  if 200 ≤ r.statusCode ∧ r.statusCode ≤ 299 ∧ r.method = "DELETE" then []
  else r.body

/-- Embedding of `checkResponse` in `client.go`. `decodeJson` abstracts
`json.Unmarshal(buf, &res)` into `map[string]interface{}` (`none` is an
unmarshalling failure); the body it is applied to is the unbounded
`ReadAll` buffer, i.e. the whole body. -/
def checkResponse (decodeJson : List Char → Option (List (String × JVal)))
    (r : HttpResponse) : CheckResult :=
  if 200 ≤ r.statusCode ∧ r.statusCode ≤ 299 ∧ r.method = "DELETE" then
    CheckResult.success
  else if r.statusCode ≥ 500 ∨ r.statusCode = 401 ∨ r.statusCode = 404 then
    CheckResult.statusErr r.statusCode
  else if r.body = [] then
    CheckResult.success
  else
    match decodeJson r.body with
    | none => CheckResult.decodeErr
    | some res => classify res

/-- C2 at its refuting input: a 200 POST response whose body decodes to an
object containing both an `entities` key and a `status` key holding an
object with state `"ERROR"`. The claim predicts the `entities` branch
(success); the code inspects `status` first and returns the structured
error. -/
theorem checkResponse_status_beats_entities :
    checkResponse
        (fun _ => some [("entities", JVal.jarr []),
          ("status", JVal.jobj [("state", JVal.jstr "ERROR")])])
        ⟨"POST", 200, ['x']⟩ = CheckResult.structuredErr "ERROR"
    ∧ CheckResult.structuredErr "ERROR" ≠ CheckResult.success := by
  exact ⟨by decide, by decide⟩

/-- C2 amended: classification checks `status` before `entities`. For a
decoded body whose `status` key holds an object, the result is decided by
that object's `state` field alone (success unless it is the string
`"ERROR"`, decode error if non-string), regardless of an `entities` key. -/
theorem classify_status_branch_precedence (res fields : List (String × JVal))
    (h : res.lookup "status" = some (JVal.jobj fields)) :
    classify res =
      (match fields.lookup "state" with
        | none => CheckResult.success
        | some (JVal.jstr s) =>
          if s ≠ "ERROR" then CheckResult.success else CheckResult.structuredErr s
        | some _ => CheckResult.decodeErr) := by
  unfold classify
  rw [h]
  cases hl : fields.lookup "state" with
  | none => simp [fillState, hl]
  | some v => cases v <;> simp [fillState, hl]

/-- Witness for `classify_status_branch_precedence`: a body whose `status`
object carries state `"COMPLETE"` (together with an `entities` key) is
classified as success. -/
theorem classify_status_branch_precedence_witness :
    classify [("status", JVal.jobj [("state", JVal.jstr "COMPLETE")]),
      ("entities", JVal.jarr [])] = CheckResult.success := by
  have h := classify_status_branch_precedence
    [("status", JVal.jobj [("state", JVal.jstr "COMPLETE")]),
      ("entities", JVal.jarr [])]
    [("state", JVal.jstr "COMPLETE")] rfl
  simpa using h

/-- C5: a non-DELETE response with status code 404 (likewise 401 or ≥500)
is reported as the hard status error carrying the status code, for every
JSON decoding behaviour and every body — the body is never parsed as
structured error content, and the result is never a structured API
error. -/
theorem checkResponse_hard_status
    (decodeJson : List Char → Option (List (String × JVal)))
    (r : HttpResponse) (hm : r.method ≠ "DELETE")
    (hc : r.statusCode ≥ 500 ∨ r.statusCode = 401 ∨ r.statusCode = 404) :
    checkResponse decodeJson r = CheckResult.statusErr r.statusCode
    ∧ ∀ s, checkResponse decodeJson r ≠ CheckResult.structuredErr s := by
  have h1 : ¬ (200 ≤ r.statusCode ∧ r.statusCode ≤ 299 ∧ r.method = "DELETE") := by
    intro hd
    exact hm hd.2.2
  unfold checkResponse
  rw [if_neg h1, if_pos hc]
  exact ⟨rfl, fun s hs => CheckResult.noConfusion hs⟩

/-- Witness for `checkResponse_hard_status`: a GET 404 whose body would
decode to a well-formed structured-error object still yields the hard
status error 404. -/
theorem checkResponse_hard_status_witness :
    checkResponse
        (fun _ => some [("status", JVal.jobj [("state", JVal.jstr "ERROR")])])
        ⟨"GET", 404, ['x']⟩ = CheckResult.statusErr 404 :=
  (checkResponse_hard_status
    (fun _ => some [("status", JVal.jobj [("state", JVal.jstr "ERROR")])])
    ⟨"GET", 404, ['x']⟩ (by decide) (by decide)).1

/-- C10: a non-DELETE response whose status code is not ≥500, 401 or 404
and whose body is empty is a success, for every JSON decoding behaviour —
the empty body is never handed to the JSON parser and never reported as a
decode error. -/
theorem checkResponse_empty_body
    (decodeJson : List Char → Option (List (String × JVal)))
    (r : HttpResponse) (hm : r.method ≠ "DELETE")
    (hc : ¬ (r.statusCode ≥ 500 ∨ r.statusCode = 401 ∨ r.statusCode = 404))
    (hb : r.body = []) :
    checkResponse decodeJson r = CheckResult.success := by
  have h1 : ¬ (200 ≤ r.statusCode ∧ r.statusCode ≤ 299 ∧ r.method = "DELETE") := by
    intro hd
    exact hm hd.2.2
  unfold checkResponse
  rw [if_neg h1, if_neg hc, if_pos hb]

/-- Witness for `checkResponse_empty_body`: a 200 POST with empty body is
success even under a decoder that would report any parsed object as an
error. -/
theorem checkResponse_empty_body_witness :
    checkResponse (fun _ => none) ⟨"POST", 200, []⟩ = CheckResult.success :=
  checkResponse_empty_body (fun _ => none) ⟨"POST", 200, []⟩
    (by decide) (by decide) (by decide)

/-- C4 at its refuting family of inputs: there is no fixed maximum size
bounding the bytes the decoder holds — for every candidate bound `M` a
200 POST response with a body of `M + 1` bytes reaches the decode step and
the whole body is retained. -/
theorem checkResponse_read_unbounded :
    ¬ ∃ M : Nat, ∀ body : List Char,
      (heldBuf ⟨"POST", 200, body⟩).length ≤ M := by
  rintro ⟨M, h⟩
  have hM := h (List.replicate (M + 1) 'a')
  have hcond : ¬ ((200 : Int) ≤ 200 ∧ (200 : Int) ≤ 299 ∧ "POST" = "DELETE") := by
    decide
  have hval : heldBuf ⟨"POST", 200, List.replicate (M + 1) 'a'⟩ =
      List.replicate (M + 1) 'a' := by
    unfold heldBuf
    exact if_neg hcond
  rw [hval, List.length_replicate] at hM
  omega

/-- C4 amended: the decoder reads the entire response body into memory
(`ioutil.ReadAll`) whenever the 2xx-DELETE shortcut does not apply — the
retained buffer is the whole body, of the body's full length, with no
truncation or rejection at any maximum size. -/
theorem checkResponse_reads_whole_body (r : HttpResponse)
    (h : ¬ (200 ≤ r.statusCode ∧ r.statusCode ≤ 299 ∧ r.method = "DELETE")) :
    heldBuf r = r.body ∧ (heldBuf r).length = r.body.length := by
  have hb : heldBuf r = r.body := by
    unfold heldBuf
    rw [if_neg h]
  exact ⟨hb, by rw [hb]⟩

/-- Witness for `checkResponse_reads_whole_body`: a 200 GET with a
three-byte body retains exactly those three bytes. -/
theorem checkResponse_reads_whole_body_witness :
    heldBuf ⟨"GET", 200, ['a', 'b', 'c']⟩ = ['a', 'b', 'c'] :=
  (checkResponse_reads_whole_body ⟨"GET", 200, ['a', 'b', 'c']⟩ (by decide)).1

/-! Client construction (`NewClient` in `client.go`) and request
builders (`setHeaders`, `newV3Request`, `newV2Request`). -/

/-- The `Credentials` struct from `client.go`. -/
structure Credentials where
  username : String
  password : String
deriving DecidableEq

/-- The client options the package exports: `WithCredentials` and
`WithEndpoint` are the only `ClientOption` constructors in the sources. -/
inductive ClientOption where
  | withCredentials (cred : Credentials)
  | withEndpoint (endpoint : String)

/-- The observable `Client` configuration from `client.go`:
`insecureSkipVerify` is the `TLSClientConfig.InsecureSkipVerify` flag of
the HTTP transport the client ends up with (the zero-value transport the
struct literal starts from performs verification, i.e. `false`). -/
structure Client where
  baseURL : Option String
  credentials : Option Credentials
  insecureSkipVerify : Bool
  userAgent : String

/-- Embedding of applying one `ClientOption`: `WithCredentials` stores the
credentials; `WithEndpoint` stores
`fmt.Sprintf(defaultBaseURL, endpoint)` with `defaultBaseURL = "%s:9440/"`. -/
def applyOption (c : Client) : ClientOption → Client
  | ClientOption.withCredentials cred => { c with credentials := some cred }
  | ClientOption.withEndpoint e => { c with baseURL := some (e ++ ":9440/") }

/-- Embedding of `NewClient(options ...ClientOption)` from `client.go`:
start from the zero client, apply the options in order, then set the
user agent and install a transport with
`TLSClientConfig: &tls.Config{InsecureSkipVerify: true}` — unconditionally,
after all options have been applied. -/
def NewClient (options : List ClientOption) : Client :=
  let c := options.foldl applyOption
    { baseURL := none, credentials := none, insecureSkipVerify := false,
      userAgent := "" }
  { c with userAgent := userAgentConst, insecureSkipVerify := true }

/-- C3 at its refuting input: a client constructed without any option at
all has TLS certificate verification disabled (`InsecureSkipVerify` is
`true`), contradicting verification-enabled-by-default. -/
theorem newClient_default_skips_verification :
    (NewClient []).insecureSkipVerify = true
    ∧ (NewClient []).insecureSkipVerify ≠ false := by
  exact ⟨rfl, by decide⟩

/-- C3 amended: every client, whatever options are supplied, is
constructed with TLS certificate verification disabled; since
`WithCredentials` and `WithEndpoint` are the only options in the package,
no construction-time option restores verification. -/
theorem newClient_always_skips_verification (options : List ClientOption) :
    (NewClient options).insecureSkipVerify = true := by
  simp [NewClient]

/-- Embedding of `req.Header.Set(key, value)`: replace any previous value
for the key. -/
def setHeader (hs : List (String × String)) (key value : String) :
    List (String × String) :=
  (key, value) :: hs.filter (fun p => p.1 ≠ key)

/-- The parts of an `*http.Request` the claims inspect: the basic-auth
credentials installed by `req.SetBasicAuth` and the header map. -/
structure HttpRequest where
  method : String
  url : String
  basicAuth : Option (String × String)
  headers : List (String × String)

/-- Embedding of `(c *Client) setHeaders(req)` from `client.go`:
`req.SetBasicAuth(c.credentials.Username, c.credentials.Password)` and
`req.Header.Set("User-Agent", c.userAgent)`. `none` models the nil
dereference when no credentials were configured. -/
def setHeaders (c : Client) (req : HttpRequest) : Option HttpRequest :=
  match c.credentials with
  | none => none
  | some cred =>
    some { req with
           basicAuth := some (cred.username, cred.password),
           headers := setHeader req.headers "User-Agent" c.userAgent }

/-- Request bodies accepted by `newV3Request`: a `*schema.File` with its
declared content type, or any other value, JSON-marshalled. -/
inductive ReqBody where
  | file (contentType : String)
  | jsonVal (v : JVal)

/-- Embedding of `(c *Client) newV3Request` from `client.go` (the common
constructor behind `NewV3PCRequest` and `NewV3PERequest`, which only
differ in how they compute the URL): build the request, apply
`setHeaders`, then set `Content-Type` and `Accept` to the body's content
type (`application/json` for JSON bodies). -/
def newV3Request (c : Client) (method url : String) (body : ReqBody) :
    Option HttpRequest :=
  let contentType := match body with
    | ReqBody.file ct => ct
    | ReqBody.jsonVal _ => "application/json"
  match setHeaders c { method := method, url := url, basicAuth := none,
                       headers := [] } with
  | none => none
  | some req =>
    some { req with
           headers := setHeader
             (setHeader req.headers "Content-Type" contentType)
             "Accept" contentType }

/-- Embedding of `(c *Client) newV2Request` from `client.go` (behind
`NewV2PCRequest` and `NewV2PERequest`): build the request and apply
`setHeaders`; no content-type headers are set on the v2 path. -/
def newV2Request (c : Client) (method url : String) : Option HttpRequest :=
  setHeaders c { method := method, url := url, basicAuth := none,
                 headers := [] }

/-- C9: every request either builder variant produces from a constructed
client carries HTTP basic authentication built from the configured
username/password and the fixed user-agent value
`"nutanix/" + "cmd.Version"`; no built request omits either. -/
theorem builtRequests_carry_auth_and_user_agent (options : List ClientOption)
    (cred : Credentials) (method url : String) (body : ReqBody)
    (hcred : (NewClient options).credentials = some cred) :
    (∀ req, newV3Request (NewClient options) method url body = some req →
      req.basicAuth = some (cred.username, cred.password)
      ∧ req.headers.lookup "User-Agent" = some userAgentConst)
    ∧ (∀ req, newV2Request (NewClient options) method url = some req →
      req.basicAuth = some (cred.username, cred.password)
      ∧ req.headers.lookup "User-Agent" = some userAgentConst) := by
  have hua : (NewClient options).userAgent = userAgentConst := by
    simp [NewClient]
  constructor
  · intro req hreq
    unfold newV3Request setHeaders at hreq
    rw [hcred] at hreq
    simp only [Option.some.injEq] at hreq
    subst hreq
    refine ⟨rfl, ?_⟩
    simp [setHeader, List.lookup, hua]
  · intro req hreq
    unfold newV2Request setHeaders at hreq
    rw [hcred] at hreq
    simp only [Option.some.injEq] at hreq
    subst hreq
    refine ⟨rfl, ?_⟩
    simp [setHeader, List.lookup, hua]

/-- Witness for `builtRequests_carry_auth_and_user_agent`: a client built
with credentials `admin`/`secret` produces a v3 POST request carrying
exactly those basic-auth values and the fixed user agent. -/
theorem builtRequests_carry_auth_and_user_agent_witness :
    (HttpRequest.mk "POST" "/vms/list" (some ("admin", "secret"))
        [("Accept", "application/json"), ("Content-Type", "application/json"),
         ("User-Agent", userAgentConst)]).basicAuth = some ("admin", "secret")
    ∧ (HttpRequest.mk "POST" "/vms/list" (some ("admin", "secret"))
        [("Accept", "application/json"), ("Content-Type", "application/json"),
         ("User-Agent", userAgentConst)]).headers.lookup "User-Agent"
      = some userAgentConst :=
  (builtRequests_carry_auth_and_user_agent
    [ClientOption.withCredentials ⟨"admin", "secret"⟩] ⟨"admin", "secret"⟩
    "POST" "/vms/list" (ReqBody.jsonVal JVal.jnull) rfl).1
    (HttpRequest.mk "POST" "/vms/list" (some ("admin", "secret"))
      [("Accept", "application/json"), ("Content-Type", "application/json"),
       ("User-Agent", userAgentConst)]) (by rfl)

/-! By-name lookups (`VMClient.GetByName` in `vm.go`,
`ProjectClient.GetByName` in `project.go`). -/

/-- Embedding of `VMClient.GetByName` from `vm.go`, parameterized over the
outcome of the underlying `List` call (its accumulated entities, modelled
as opaque identifiers, and its Go error value modelled as an error
string): `if len(vms.Entities) == 0 { return nil, fmt.Errorf("VM not found: %s", name) }; return vms.Entities[0], err`. -/
def vmGetByName (name : String) (entities : List String)
    (err : Option String) : Option String × Option String :=
  if entities.length = 0 then (none, some ("VM not found: " ++ name))
  else (entities.head?, err)

/-- Embedding of `ProjectClient.GetByName` from `project.go`, same shape
as `vmGetByName` with the `"project not found: %s"` message. -/
def projectGetByName (name : String) (entities : List String)
    (err : Option String) : Option String × Option String :=
  if entities.length = 0 then (none, some ("project not found: " ++ name))
  else (entities.head?, err)

/-- C7 at its refuting input: the underlying `List` call fails with a
transport error (`"connection refused"`) and, as on any failed call, comes
back with zero entities; `GetByName` returns the logical not-found error,
not the transport error — the two are not distinguishable at the
`GetByName` boundary because the transport error is discarded. -/
theorem vmGetByName_masks_transport_error :
    vmGetByName "web" [] (some "connection refused") =
      (none, some ("VM not found: " ++ "web"))
    ∧ some ("VM not found: " ++ "web") ≠ some "connection refused" := by
  exact ⟨rfl, by decide⟩

/-- C7 amended: whenever the underlying `List` call yields zero entities —
whether it succeeded or failed with a transport/API error — `GetByName`
returns the logical not-found error referencing the queried name and
discards any `List` error; a `List` error is surfaced only when at least
one entity was returned. -/
theorem getByName_not_found (name : String) (err : Option String)
    (entities : List String) :
    vmGetByName name [] err = (none, some ("VM not found: " ++ name))
    ∧ projectGetByName name [] err = (none, some ("project not found: " ++ name))
    ∧ (entities ≠ [] →
        vmGetByName name entities err = (entities.head?, err)) := by
  refine ⟨rfl, rfl, fun h => ?_⟩
  unfold vmGetByName
  rw [if_neg (by simpa using h)]

/-- Witness for `getByName_not_found`: with one entity `vm-1` and a failed
`List` call the entity and the error are both passed through. -/
theorem getByName_not_found_witness :
    vmGetByName "web" ["vm-1"] (some "boom") = (some "vm-1", some "boom") := by
  have h := (getByName_not_found "web" (some "boom") ["vm-1"]).2.2 (by decide)
  simpa using h

end Nutanix
